import Mathlib

/-!
Shallow embedding of the terminal Snake game (`src/main.rs`).

The game logic is pure except for the random number generator used by
`spawn_food` and the file system used by the high-score persistence.
We model the RNG as an explicit finite stream of raw draws
(`List (Nat × Nat)`); `gen_range(0..n)` on a raw draw `a` is modelled as
`a % n`, which produces exactly the values `0 ≤ v < n` that `gen_range`
can produce.  Operations that call `spawn_food` therefore return
`Option Game`: `none` models exhaustion of the finite stream (the Rust
loop would keep drawing).  File reads are modelled by an
`Option String` argument (`none` = missing or unreadable file).

Machine integers: positions are `i16` in Rust; we model them as `Int`
(the grid is at most `2 ^ 15` wide, far from overflow for every state
the claims quantify over).  Scores are `u32`/`u64`, modelled as `Nat`
(`saturating_sub` is `Nat` subtraction).
-/

namespace Snake

/-- `GRID_WIDTH` from `main.rs`. -/
def GRID_WIDTH : Nat := 20

/-- `GRID_HEIGHT` from `main.rs`. -/
def GRID_HEIGHT : Nat := 20

/-- `INITIAL_SNAKE_LENGTH` from `main.rs`. -/
def INITIAL_SNAKE_LENGTH : Nat := 3

/-- `BASE_TICK_MS` from `main.rs`. -/
def BASE_TICK_MS : Nat := 200

/-- `MIN_TICK_MS` from `main.rs`. -/
def MIN_TICK_MS : Nat := 50

/-- `SPEED_INCREASE_PER_FOOD` from `main.rs`. -/
def SPEED_INCREASE_PER_FOOD : Nat := 5

/-- `struct Position { x: i16, y: i16 }`. -/
structure Position where
  x : Int
  y : Int
deriving DecidableEq, Repr

/-- `enum Direction`. -/
inductive Direction where
  | Up
  | Down
  | Left
  | Right
deriving DecidableEq, Repr

/-- `Direction::opposite`. -/
def Direction.opposite : Direction → Direction
  | .Up => .Down
  | .Down => .Up
  | .Left => .Right
  | .Right => .Left

/-- `enum GameState { Playing, GameOver }`. -/
inductive GameState where
  | Playing
  | GameOver
deriving DecidableEq, Repr

/-- `struct Game`.  The `VecDeque<Position>` snake is a list whose head
is the deque front (the snake's head). -/
structure Game where
  snake : List Position
  direction : Direction
  next_direction : Direction
  food : Position
  score : Nat
  high_score : Nat
  state : GameState
  grid_width : Nat
  grid_height : Nat
deriving DecidableEq, Repr

/-- The new-head computation in `Game::tick`: one step from `p` in
direction `d` (`Up` decrements `y`, `Down` increments `y`, `Left`
decrements `x`, `Right` increments `x`). -/
def step_pos (p : Position) (d : Direction) : Position :=
  match d with
  | .Up => ⟨p.x, p.y - 1⟩
  | .Down => ⟨p.x, p.y + 1⟩
  | .Left => ⟨p.x - 1, p.y⟩
  | .Right => ⟨p.x + 1, p.y⟩

/-- The wall-collision test in `Game::tick`:
`x < 0 || x >= grid_width || y < 0 || y >= grid_height`. -/
def wall_collision (w h : Nat) (p : Position) : Prop :=
  p.x < 0 ∨ (w : Int) ≤ p.x ∨ p.y < 0 ∨ (h : Int) ≤ p.y

instance (w h : Nat) (p : Position) : Decidable (wall_collision w h p) := by
  unfold wall_collision
  infer_instance

/-- A position lying inside the grid: `0 ≤ x < w` and `0 ≤ y < h`
(the negation of `wall_collision`). -/
def in_grid (w h : Nat) (p : Position) : Prop :=
  0 ≤ p.x ∧ p.x < (w : Int) ∧ 0 ≤ p.y ∧ p.y < (h : Int)

instance (w h : Nat) (p : Position) : Decidable (in_grid w h p) := by
  unfold in_grid
  infer_instance

theorem in_grid_mk (w h : Nat) (x y : Int) :
    in_grid w h ⟨x, y⟩ ↔ 0 ≤ x ∧ x < (w : Int) ∧ 0 ≤ y ∧ y < (h : Int) :=
  Iff.rfl

theorem not_wall_collision_iff (w h : Nat) (p : Position) :
    ¬ wall_collision w h p ↔ in_grid w h p := by
  unfold wall_collision in_grid
  constructor
  · intro hn
    push_neg at hn
    exact hn
  · rintro ⟨h1, h2, h3, h4⟩ (h | h | h | h) <;> omega

/-- The body of the `loop` in `Game::spawn_food`, over an explicit
stream of raw RNG draws: each draw `(a, b)` yields the candidate
`(a % w, b % h)` (the values `gen_range(0..w)` / `gen_range(0..h)` can
return); the first candidate not contained in the snake is the result.
`none` models running out of the finite stream. -/
def spawn_food_loop (w h : Nat) (snake : List Position) :
    List (Nat × Nat) → Option Position
  | [] => none
  | (a, b) :: rest =>
    let pos : Position := ⟨((a % w : Nat) : Int), ((b % h : Nat) : Int)⟩
    if pos ∉ snake then some pos else spawn_food_loop w h snake rest

/-- `Game::spawn_food`: replace `food` by the first free candidate the
RNG stream produces. -/
def Game.spawn_food (g : Game) (rng : List (Nat × Nat)) : Option Game :=
  (spawn_food_loop g.grid_width g.grid_height g.snake rng).map
    (fun p => { g with food := p })

/-- `Game::end_game`: raise `high_score` to `score` if the score beat
it, and enter `GameOver`. -/
def Game.end_game (g : Game) : Game :=
  { g with
    high_score := if g.score > g.high_score then g.score else g.high_score,
    state := GameState.GameOver }

/-- `Game::tick`.  Returns early (unchanged) unless `Playing`; applies
the queued `next_direction`; computes the new head; ends the game on a
wall or self collision; otherwise pushes the new head, and on eating
the food increments the score and respawns the food, else pops the
tail.  `none` models the `front().unwrap()` panic on an empty snake and
RNG-stream exhaustion in `spawn_food`. -/
def Game.tick (g0 : Game) (rng : List (Nat × Nat)) : Option Game :=
  if g0.state = GameState.Playing then
    let g : Game := { g0 with direction := g0.next_direction }
    match g0.snake with
    | [] => none
    | head :: _ =>
      let new_head := step_pos head g.direction
      if wall_collision g.grid_width g.grid_height new_head then
        some g.end_game
      else if new_head ∈ g.snake then
        some g.end_game
      else
        let g2 : Game := { g with snake := new_head :: g.snake }
        if new_head = g2.food then
          Game.spawn_food { g2 with score := g2.score + 1 } rng
        else
          some { g2 with snake := g2.snake.dropLast }
  else some g0

/-- `Game::change_direction`: queue `new_direction` unless it is the
180-degree reversal of the current direction. -/
def Game.change_direction (g : Game) (new_direction : Direction) : Game :=
  if new_direction ≠ g.direction.opposite then
    { g with next_direction := new_direction }
  else g

/-- `Game::tick_duration`, in milliseconds
(`BASE_TICK_MS.saturating_sub(score * SPEED_INCREASE_PER_FOOD).max(MIN_TICK_MS)`;
`Nat` subtraction is saturating). -/
def Game.tick_duration (g : Game) : Nat :=
  max (BASE_TICK_MS - g.score * SPEED_INCREASE_PER_FOOD) MIN_TICK_MS

/-- The initial snake built by the loops in `Game::new` and
`Game::restart`: segments `(center_x - i, center_y)` for
`i = 0, …, INITIAL_SNAKE_LENGTH - 1`, pushed back in order. -/
def initial_snake (w h : Nat) : List Position :=
  (List.range INITIAL_SNAKE_LENGTH).map
    (fun i => ⟨(w : Int) / 2 - i, (h : Int) / 2⟩)

/-- `Game::restart`: reset the snake to the initial centered snake,
directions to `Right`, score to `0`, state to `Playing`, and respawn
the food.  `high_score` and the grid size are untouched. -/
def Game.restart (g : Game) (rng : List (Nat × Nat)) : Option Game :=
  Game.spawn_food
    { g with
      snake := initial_snake g.grid_width g.grid_height,
      direction := Direction.Right,
      next_direction := Direction.Right,
      score := 0,
      state := GameState.Playing }
    rng

/-- `Game::is_game_over`. -/
def Game.is_game_over (g : Game) : Prop :=
  g.state = GameState.GameOver

/-- `load_high_score`: the file read is an `Option String` (`none` =
missing or unreadable), `parse` models `str::parse::<u32>` on the
trimmed contents, and any failure defaults to `0`. -/
def load_high_score (contents : Option String) (parse : String → Option Nat) :
    Nat :=
  (((contents.map String.trim).bind parse)).getD 0

/-- The snake-validity invariant: the snake is non-empty, lies inside
the grid, and has pairwise-distinct segments. -/
def valid_snake (g : Game) : Prop :=
  g.snake ≠ [] ∧ (∀ p ∈ g.snake, in_grid g.grid_width g.grid_height p) ∧
    g.snake.Nodup

instance (g : Game) : Decidable (valid_snake g) := by
  unfold valid_snake
  infer_instance

/-- A small concrete game on a 4×4 grid, used to instantiate theorems
with hypotheses at concrete inputs. -/
def wg : Game :=
  { snake := [⟨2, 1⟩, ⟨1, 1⟩], direction := Direction.Right,
    next_direction := Direction.Right, food := ⟨3, 1⟩, score := 0,
    high_score := 0, state := GameState.Playing,
    grid_width := 4, grid_height := 4 }

/-- `wg` after a game over. -/
def wgOver : Game := { wg with state := GameState.GameOver }

/-- The result of `wgOver.restart [(0, 0)]`: the centered initial
snake of length 3 and the food drawn at `(0, 0)`. -/
def wgRestart : Game :=
  { wg with snake := [⟨2, 2⟩, ⟨1, 2⟩, ⟨0, 2⟩], food := ⟨0, 0⟩ }

/-- `wg` with `Up` queued. -/
def wgUp : Game := { wg with next_direction := Direction.Up }

/-- The result of `wgUp.tick []`: the snake moved one cell up. -/
def wgUpMoved : Game :=
  { wg with
    direction := Direction.Up,
    next_direction := Direction.Up,
    snake := [⟨2, 0⟩, ⟨2, 1⟩] }

/-- A game one step from the left wall, heading `Left`. -/
def wgWall : Game :=
  { wg with
    snake := [⟨0, 0⟩, ⟨1, 0⟩],
    direction := Direction.Left,
    next_direction := Direction.Left }

/-- The result of `wgWall.tick []`: the wall collision ends the game. -/
def wgWallEnd : Game := { wgWall with state := GameState.GameOver }

/-- The result of `wg.tick [(0, 0)]`: the snake eats the food at
`(3, 1)`, grows, scores, and the food respawns at `(0, 0)`. -/
def wgEat : Game :=
  { wg with
    snake := [⟨3, 1⟩, ⟨2, 1⟩, ⟨1, 1⟩],
    score := 1,
    food := ⟨0, 0⟩ }

/-!  Characterization lemmas for the four branches of `Game.tick` and
for `Game.spawn_food`, shared by the claim theorems below. -/

theorem tick_not_playing (g : Game) (rng : List (Nat × Nat))
    (h : g.state ≠ GameState.Playing) : g.tick rng = some g := by
  unfold Game.tick
  rw [if_neg h]

theorem spawn_food_loop_spec (w h : Nat) (snake : List Position)
    (rng : List (Nat × Nat)) (p : Position) (hw : 0 < w) (hh : 0 < h)
    (hs : spawn_food_loop w h snake rng = some p) :
    in_grid w h p ∧ p ∉ snake := by
  induction rng with
  | nil => simp [spawn_food_loop] at hs
  | cons draw rest ih =>
    obtain ⟨a, b⟩ := draw
    rw [spawn_food_loop] at hs
    by_cases hmem : (⟨((a % w : Nat) : Int), ((b % h : Nat) : Int)⟩ : Position) ∉ snake
    · rw [if_pos hmem] at hs
      obtain rfl : (⟨((a % w : Nat) : Int), ((b % h : Nat) : Int)⟩ : Position) = p :=
        Option.some_injective _ hs
      refine ⟨⟨?_, ?_, ?_, ?_⟩, hmem⟩
      · exact Int.ofNat_nonneg _
      · show ((a % w : Nat) : Int) < (w : Int)
        exact_mod_cast Nat.mod_lt a hw
      · exact Int.ofNat_nonneg _
      · show ((b % h : Nat) : Int) < (h : Int)
        exact_mod_cast Nat.mod_lt b hh
    · rw [if_neg hmem] at hs
      exact ih hs

theorem spawn_food_some (g g' : Game) (rng : List (Nat × Nat))
    (h : g.spawn_food rng = some g') :
    spawn_food_loop g.grid_width g.grid_height g.snake rng = some g'.food ∧
      g' = { g with food := g'.food } := by
  unfold Game.spawn_food at h
  cases hl : spawn_food_loop g.grid_width g.grid_height g.snake rng with
  | none => rw [hl] at h; simp at h
  | some p =>
    rw [hl] at h
    simp only [Option.map_some'] at h
    obtain rfl : ({ g with food := p } : Game) = g' := Option.some_injective _ h
    exact ⟨by simp [hl], rfl⟩

theorem tick_collision (g : Game) (rng : List (Nat × Nat))
    (hd : Position) (tl : List Position)
    (hp : g.state = GameState.Playing) (hs : g.snake = hd :: tl)
    (hc : wall_collision g.grid_width g.grid_height (step_pos hd g.next_direction) ∨
      step_pos hd g.next_direction ∈ g.snake) :
    g.tick rng = some ({ g with direction := g.next_direction }).end_game := by
  rcases hc with hc | hc
  · simp [Game.tick, hp, hs, hc]
  · by_cases hw : wall_collision g.grid_width g.grid_height
      (step_pos hd g.next_direction)
    · simp [Game.tick, hp, hs, hw]
    · rw [hs] at hc
      simp [Game.tick, hp, hs, hw, hc]

theorem tick_eat (g : Game) (rng : List (Nat × Nat))
    (hd : Position) (tl : List Position)
    (hp : g.state = GameState.Playing) (hs : g.snake = hd :: tl)
    (hw : ¬ wall_collision g.grid_width g.grid_height
      (step_pos hd g.next_direction))
    (hm : step_pos hd g.next_direction ∉ g.snake)
    (hf : step_pos hd g.next_direction = g.food) :
    g.tick rng =
      Game.spawn_food
        { g with
          direction := g.next_direction,
          snake := step_pos hd g.next_direction :: g.snake,
          score := g.score + 1 }
        rng := by
  rw [hs] at hm
  simp only [List.mem_cons, not_or] at hm
  rw [hf] at hw hm
  simp [Game.tick, hp, hs, hw, hf, hm.1, hm.2]

theorem tick_move (g : Game) (rng : List (Nat × Nat))
    (hd : Position) (tl : List Position)
    (hp : g.state = GameState.Playing) (hs : g.snake = hd :: tl)
    (hw : ¬ wall_collision g.grid_width g.grid_height
      (step_pos hd g.next_direction))
    (hm : step_pos hd g.next_direction ∉ g.snake)
    (hf : step_pos hd g.next_direction ≠ g.food) :
    g.tick rng =
      some
        { g with
          direction := g.next_direction,
          snake := (step_pos hd g.next_direction :: g.snake).dropLast } := by
  rw [hs] at hm
  simp only [List.mem_cons, not_or] at hm
  simp [Game.tick, hp, hs, hw, hf, hm.1, hm.2]

theorem tick_empty_snake (g : Game) (rng : List (Nat × Nat))
    (hp : g.state = GameState.Playing) (hs : g.snake = []) :
    g.tick rng = none := by
  simp [Game.tick, hp, hs]

theorem tick_cases (g g' : Game) (rng : List (Nat × Nat))
    (ht : g.tick rng = some g') :
    (g.state ≠ GameState.Playing ∧ g' = g) ∨
    (g.state = GameState.Playing ∧
      ∃ hd tl, g.snake = hd :: tl ∧
      (wall_collision g.grid_width g.grid_height
          (step_pos hd g.next_direction) ∨
        step_pos hd g.next_direction ∈ g.snake) ∧
      g' = ({ g with direction := g.next_direction } : Game).end_game) ∨
    (g.state = GameState.Playing ∧
      ∃ hd tl, g.snake = hd :: tl ∧
      ¬ wall_collision g.grid_width g.grid_height
          (step_pos hd g.next_direction) ∧
      step_pos hd g.next_direction ∉ g.snake ∧
      step_pos hd g.next_direction = g.food ∧
      g' = { g with
        direction := g.next_direction,
        snake := step_pos hd g.next_direction :: g.snake,
        score := g.score + 1,
        food := g'.food }) ∨
    (g.state = GameState.Playing ∧
      ∃ hd tl, g.snake = hd :: tl ∧
      ¬ wall_collision g.grid_width g.grid_height
          (step_pos hd g.next_direction) ∧
      step_pos hd g.next_direction ∉ g.snake ∧
      step_pos hd g.next_direction ≠ g.food ∧
      g' = { g with
        direction := g.next_direction,
        snake := (step_pos hd g.next_direction :: g.snake).dropLast }) := by
  by_cases hp : g.state = GameState.Playing
  · by_cases hemp : g.snake = []
    · rw [tick_empty_snake g rng hp hemp] at ht
      exact absurd ht (by simp)
    · obtain ⟨hd, tl, hsn⟩ := List.exists_cons_of_ne_nil hemp
      by_cases hc : wall_collision g.grid_width g.grid_height
          (step_pos hd g.next_direction) ∨ step_pos hd g.next_direction ∈ g.snake
      · rw [tick_collision g rng hd tl hp hsn hc] at ht
        obtain rfl := Option.some_injective _ ht.symm
        exact Or.inr (Or.inl ⟨hp, hd, tl, hsn, hc, rfl⟩)
      · push_neg at hc
        obtain ⟨hw, hm⟩ := hc
        by_cases hf : step_pos hd g.next_direction = g.food
        · rw [tick_eat g rng hd tl hp hsn hw hm hf] at ht
          obtain ⟨hl, h2⟩ := spawn_food_some _ g' rng ht
          exact Or.inr (Or.inr (Or.inl ⟨hp, hd, tl, hsn, hw, hm, hf, h2⟩))
        · rw [tick_move g rng hd tl hp hsn hw hm hf] at ht
          obtain rfl := Option.some_injective _ ht.symm
          exact Or.inr (Or.inr (Or.inr ⟨hp, hd, tl, hsn, hw, hm, hf, rfl⟩))
  · rw [tick_not_playing g rng hp] at ht
    obtain rfl := Option.some_injective _ ht.symm
    exact Or.inl ⟨hp, rfl⟩

theorem opposite_ne (d : Direction) : d.opposite ≠ d := by
  cases d <;> decide

/-- C7: if the high-score file is missing or unreadable (the read
yields no contents), `load_high_score` returns the default value `0`,
whatever the integer parser does. -/
theorem load_high_score_missing_file (parse : String → Option Nat) :
    load_high_score none parse = 0 := rfl

/-- C5 counterexample: `tick_duration` is not the same for every game
state — a game with score `1` ticks faster (195 ms) than the same game
with score `0` (200 ms). -/
theorem tick_duration_not_constant :
    ({ wg with score := 1 } : Game).tick_duration ≠ wg.tick_duration := by
  decide

/-- C5 amended: the tick interval is a function of the score alone:
`max (BASE_TICK_MS - score * SPEED_INCREASE_PER_FOOD) MIN_TICK_MS`
milliseconds, always between `MIN_TICK_MS` and `BASE_TICK_MS`, and
non-increasing as the score grows. -/
theorem tick_duration_score_function :
    (∀ g1 g2 : Game, g1.score = g2.score →
      g1.tick_duration = g2.tick_duration) ∧
    (∀ g : Game, g.tick_duration =
      max (BASE_TICK_MS - g.score * SPEED_INCREASE_PER_FOOD) MIN_TICK_MS) ∧
    (∀ g : Game, MIN_TICK_MS ≤ g.tick_duration ∧
      g.tick_duration ≤ BASE_TICK_MS) ∧
    (∀ g1 g2 : Game, g1.score ≤ g2.score →
      g2.tick_duration ≤ g1.tick_duration) := by
  refine ⟨?_, ?_, ?_, ?_⟩
  · intro g1 g2 h
    unfold Game.tick_duration
    rw [h]
  · intro g
    rfl
  · intro g
    unfold Game.tick_duration BASE_TICK_MS MIN_TICK_MS SPEED_INCREASE_PER_FOOD
    omega
  · intro g1 g2 h
    unfold Game.tick_duration BASE_TICK_MS MIN_TICK_MS SPEED_INCREASE_PER_FOOD
    have : g1.score * 5 ≤ g2.score * 5 := Nat.mul_le_mul_right 5 h
    omega

/-- Witness for the amended C5 theorem at concrete games. -/
theorem tick_duration_score_function_witness :
    wg.tick_duration = ({ wg with high_score := 7 } : Game).tick_duration ∧
    (MIN_TICK_MS ≤ wg.tick_duration ∧ wg.tick_duration ≤ BASE_TICK_MS) ∧
    ({ wg with score := 3 } : Game).tick_duration ≤ wg.tick_duration :=
  ⟨tick_duration_score_function.1 wg { wg with high_score := 7 } (by decide),
   tick_duration_score_function.2.2.1 wg,
   tick_duration_score_function.2.2.2 wg { wg with score := 3 } (by decide)⟩

/-- C6 counterexample: from `GameOver`, `change_direction` does not
leave the entire game unchanged — on a game over facing `Right`,
queueing `Up` changes `next_direction`. -/
theorem change_direction_in_game_over_changes_game :
    wgOver.change_direction Direction.Up ≠ wgOver := by
  decide

/-- C6 amended: the state is always `Playing` or `GameOver`; from
`GameOver`, `tick` leaves the entire game unchanged; `change_direction`
never changes the state (though it may still update the queued
`next_direction`, even from `GameOver`); and a successful `restart`
always returns the state to `Playing`. -/
theorem two_state_machine :
    (∀ s : GameState, s = GameState.Playing ∨ s = GameState.GameOver) ∧
    (∀ g : Game, ∀ rng, g.state = GameState.GameOver → g.tick rng = some g) ∧
    (∀ g : Game, ∀ d, (g.change_direction d).state = g.state ∧
      (g.change_direction d = g ∨
        g.change_direction d = { g with next_direction := d })) ∧
    (∀ g g' : Game, ∀ rng, g.restart rng = some g' →
      g'.state = GameState.Playing) := by
  refine ⟨?_, ?_, ?_, ?_⟩
  · intro s
    cases s
    · exact Or.inl rfl
    · exact Or.inr rfl
  · intro g rng h
    exact tick_not_playing g rng (by rw [h]; decide)
  · intro g d
    unfold Game.change_direction
    by_cases h : d ≠ g.direction.opposite
    · rw [if_pos h]
      exact ⟨rfl, Or.inr rfl⟩
    · rw [if_neg h]
      exact ⟨rfl, Or.inl rfl⟩
  · intro g g' rng h
    unfold Game.restart at h
    have h2 := (spawn_food_some _ g' rng h).2
    rw [h2]

/-- Witness for the amended C6 theorem at concrete inputs. -/
theorem two_state_machine_witness :
    wgOver.tick [] = some wgOver ∧
    wgRestart.state = GameState.Playing :=
  ⟨two_state_machine.2.1 wgOver [] (by decide),
   two_state_machine.2.2.2 wgOver wgRestart [(0, 0)] (by decide)⟩

/-- C9: `high_score` is monotone: `tick` never decreases it,
`change_direction` preserves it, `end_game` sets it to
`max high_score score`, and `restart` preserves it while resetting the
score to `0`. -/
theorem high_score_monotone :
    (∀ g g' : Game, ∀ rng, g.tick rng = some g' →
      g.high_score ≤ g'.high_score) ∧
    (∀ g : Game, ∀ d, (g.change_direction d).high_score = g.high_score) ∧
    (∀ g : Game, g.end_game.high_score = max g.high_score g.score) ∧
    (∀ g g' : Game, ∀ rng, g.restart rng = some g' →
      g'.high_score = g.high_score ∧ g'.score = 0) := by
  refine ⟨?_, ?_, ?_, ?_⟩
  · intro g g' rng h
    rcases tick_cases g g' rng h with ⟨_, rfl⟩ | ⟨_, hd, tl, hsn, hc, rfl⟩ |
      ⟨_, hd, tl, hsn, hw, hm, hf, heq⟩ | ⟨_, hd, tl, hsn, hw, hm, hf, rfl⟩
    · exact le_refl _
    · simp only [Game.end_game]
      split <;> omega
    · rw [heq]
    · exact le_refl _
  · intro g d
    unfold Game.change_direction
    split <;> rfl
  · intro g
    simp only [Game.end_game]
    split <;> omega
  · intro g g' rng h
    unfold Game.restart at h
    have h2 := (spawn_food_some _ g' rng h).2
    rw [h2]
    exact ⟨rfl, rfl⟩

/-- Witness for C9 at concrete inputs. -/
theorem high_score_monotone_witness :
    wg.high_score ≤ wgEat.high_score ∧
    (wgRestart.high_score = wgOver.high_score ∧ wgRestart.score = 0) :=
  ⟨high_score_monotone.1 wg wgEat [(0, 0)] (by decide),
   high_score_monotone.2.2.2 wgOver wgRestart [(0, 0)] (by decide)⟩

/-- C8: `change_direction` never queues a 180-degree reversal:
`change_direction d` leaves `next_direction` unchanged when `d` is the
opposite of the current direction and sets it to `d` otherwise; it
never touches the `direction` field and preserves the invariant
`next_direction ≠ direction.opposite`; consequently a tick from a game
satisfying the invariant applies `next_direction`, which is never the
opposite of the direction applied at the previous tick (the current
`direction`). -/
theorem no_reversal :
    (∀ g : Game, ∀ d : Direction,
      g.change_direction d =
        if d = g.direction.opposite then g
        else { g with next_direction := d }) ∧
    (∀ g : Game, ∀ d : Direction,
      (g.change_direction d).direction = g.direction ∧
      (g.next_direction ≠ g.direction.opposite →
        (g.change_direction d).next_direction ≠
          (g.change_direction d).direction.opposite)) ∧
    (∀ g g' : Game, ∀ rng, g.next_direction ≠ g.direction.opposite →
      g.tick rng = some g' →
      g'.next_direction ≠ g'.direction.opposite ∧
      (g.state = GameState.Playing →
        g'.direction = g.next_direction ∧
        g'.direction ≠ g.direction.opposite)) := by
  refine ⟨?_, ?_, ?_⟩
  · intro g d
    unfold Game.change_direction
    by_cases h : d = g.direction.opposite
    · rw [if_neg (not_not_intro h), if_pos h]
    · rw [if_pos h, if_neg h]
  · intro g d
    constructor
    · unfold Game.change_direction
      split <;> rfl
    · intro hinv
      unfold Game.change_direction
      by_cases h : d ≠ g.direction.opposite
      · rw [if_pos h]
        exact h
      · rw [if_neg h]
        exact hinv
  · intro g g' rng hinv ht
    rcases tick_cases g g' rng ht with ⟨hnp, rfl⟩ | ⟨hp, hd, tl, hsn, hc, rfl⟩ |
      ⟨hp, hd, tl, hsn, hw, hm, hf, heq⟩ | ⟨hp, hd, tl, hsn, hw, hm, hf, rfl⟩
    · exact ⟨hinv, fun hpp => absurd hpp hnp⟩
    · exact ⟨Ne.symm (opposite_ne g.next_direction), fun _ => ⟨rfl, hinv⟩⟩
    · rw [heq]
      exact ⟨Ne.symm (opposite_ne g.next_direction), fun _ => ⟨rfl, hinv⟩⟩
    · exact ⟨Ne.symm (opposite_ne g.next_direction), fun _ => ⟨rfl, hinv⟩⟩

/-- Witness for C8 at concrete inputs: queueing `Up` on `wg`, and a
tick of `wgUp`. -/
theorem no_reversal_witness :
    (wg.change_direction Direction.Up =
      if Direction.Up = wg.direction.opposite then wg
      else { wg with next_direction := Direction.Up }) ∧
    ((wg.change_direction Direction.Up).direction = wg.direction ∧
      (wg.next_direction ≠ wg.direction.opposite →
        (wg.change_direction Direction.Up).next_direction ≠
          (wg.change_direction Direction.Up).direction.opposite)) ∧
    (wgUpMoved.next_direction ≠ wgUpMoved.direction.opposite ∧
      (wgUp.state = GameState.Playing →
        wgUpMoved.direction = wgUp.next_direction ∧
        wgUpMoved.direction ≠ wgUp.direction.opposite)) :=
  ⟨no_reversal.1 wg Direction.Up,
   no_reversal.2.1 wg Direction.Up,
   no_reversal.2.2 wgUp wgUpMoved [] (by decide) (by decide)⟩

/-- C4: whenever `spawn_food` returns on a positive-size grid, the new
food position lies inside the grid and off the snake. -/
theorem spawn_food_in_grid_off_snake (g g' : Game) (rng : List (Nat × Nat))
    (hw : 0 < g.grid_width) (hh : 0 < g.grid_height)
    (hsp : g.spawn_food rng = some g') :
    in_grid g.grid_width g.grid_height g'.food ∧ g'.food ∉ g.snake := by
  obtain ⟨hl, h2⟩ := spawn_food_some g g' rng hsp
  exact spawn_food_loop_spec _ _ _ _ _ hw hh hl

/-- Witness for C4: `wg.spawn_food [(0, 0)]` places the food at
`(0, 0)`, inside the 4×4 grid and off the snake. -/
theorem spawn_food_in_grid_off_snake_witness :
    in_grid wg.grid_width wg.grid_height
      ({ wg with food := ⟨0, 0⟩ } : Game).food ∧
    ({ wg with food := ⟨0, 0⟩ } : Game).food ∉ wg.snake :=
  spawn_food_in_grid_off_snake wg { wg with food := ⟨0, 0⟩ } [(0, 0)]
    (by decide) (by decide) (by decide)

/-- C1: a tick of a playing game ends it (sets `GameOver`) exactly when
the new head — one step from the current head in the applied
(`next_direction`) direction — hits a wall or a cell of the current
snake body, and such a tick leaves the snake and the score unchanged. -/
theorem tick_game_over_iff (g g' : Game) (rng : List (Nat × Nat))
    (hd : Position) (tl : List Position)
    (hp : g.state = GameState.Playing) (hs : g.snake = hd :: tl)
    (ht : g.tick rng = some g') :
    (g'.state = GameState.GameOver ↔
      wall_collision g.grid_width g.grid_height
        (step_pos hd g.next_direction) ∨
      step_pos hd g.next_direction ∈ g.snake) ∧
    (g'.state = GameState.GameOver →
      g'.snake = g.snake ∧ g'.score = g.score) := by
  by_cases hc : wall_collision g.grid_width g.grid_height
      (step_pos hd g.next_direction) ∨ step_pos hd g.next_direction ∈ g.snake
  · rw [tick_collision g rng hd tl hp hs hc] at ht
    obtain rfl := Option.some_injective _ ht.symm
    exact ⟨⟨fun _ => hc, fun _ => rfl⟩, fun _ => ⟨rfl, rfl⟩⟩
  · push_neg at hc
    obtain ⟨hw, hm⟩ := hc
    have hns : ∀ g2 : Game, g2.state = GameState.Playing →
        (g2.state = GameState.GameOver ↔
          wall_collision g.grid_width g.grid_height
            (step_pos hd g.next_direction) ∨
          step_pos hd g.next_direction ∈ g.snake) := by
      intro g2 h2
      rw [h2]
      constructor
      · intro hx
        exact absurd hx (by decide)
      · rintro (hx | hx)
        · exact absurd hx hw
        · exact absurd hx hm
    by_cases hf : step_pos hd g.next_direction = g.food
    · rw [tick_eat g rng hd tl hp hs hw hm hf] at ht
      obtain ⟨hl, h2⟩ := spawn_food_some _ g' rng ht
      rw [h2]
      refine ⟨hns _ hp, fun hx => absurd ((hns _ hp).mp hx) ?_⟩
      rintro (hx | hx)
      · exact absurd hx hw
      · exact absurd hx hm
    · rw [tick_move g rng hd tl hp hs hw hm hf] at ht
      obtain rfl := Option.some_injective _ ht.symm
      refine ⟨hns _ hp, fun hx => absurd ((hns _ hp).mp hx) ?_⟩
      rintro (hx | hx)
      · exact absurd hx hw
      · exact absurd hx hm

/-- Witness for C1: `wgWall` runs head-first into the left wall and the
tick ends the game, leaving snake and score unchanged. -/
theorem tick_game_over_iff_witness :
    (wgWallEnd.state = GameState.GameOver ↔
      wall_collision wgWall.grid_width wgWall.grid_height
        (step_pos ⟨0, 0⟩ wgWall.next_direction) ∨
      step_pos ⟨0, 0⟩ wgWall.next_direction ∈ wgWall.snake) ∧
    (wgWallEnd.state = GameState.GameOver →
      wgWallEnd.snake = wgWall.snake ∧ wgWallEnd.score = wgWall.score) :=
  tick_game_over_iff wgWall wgWallEnd [] ⟨0, 0⟩ [⟨1, 0⟩]
    (by decide) (by decide) (by decide)

/-- C2: a non-ending tick of a playing game first applies the queued
`next_direction`, then pushes the new head — one step from the old head
in that direction — at the front, and pops the tail unless the new head
is the food. -/
theorem tick_moves_snake (g g' : Game) (rng : List (Nat × Nat))
    (hd : Position) (tl : List Position)
    (hp : g.state = GameState.Playing) (hs : g.snake = hd :: tl)
    (ht : g.tick rng = some g') (hng : g'.state = GameState.Playing) :
    g'.direction = g.next_direction ∧
    g'.snake.head? = some (step_pos hd g.next_direction) ∧
    g'.snake =
      (if step_pos hd g.next_direction = g.food then
        step_pos hd g.next_direction :: g.snake
      else (step_pos hd g.next_direction :: g.snake).dropLast) := by
  by_cases hc : wall_collision g.grid_width g.grid_height
      (step_pos hd g.next_direction) ∨ step_pos hd g.next_direction ∈ g.snake
  · rw [tick_collision g rng hd tl hp hs hc] at ht
    obtain rfl := Option.some_injective _ ht.symm
    exact absurd
      (show GameState.GameOver = GameState.Playing from hng) (by decide)
  · push_neg at hc
    obtain ⟨hw, hm⟩ := hc
    by_cases hf : step_pos hd g.next_direction = g.food
    · rw [tick_eat g rng hd tl hp hs hw hm hf] at ht
      obtain ⟨hl, h2⟩ := spawn_food_some _ g' rng ht
      rw [h2, if_pos hf]
      exact ⟨rfl, rfl, rfl⟩
    · rw [tick_move g rng hd tl hp hs hw hm hf] at ht
      obtain rfl := Option.some_injective _ ht.symm
      rw [if_neg hf]
      refine ⟨rfl, ?_, rfl⟩
      show ((step_pos hd g.next_direction :: g.snake).dropLast).head? = _
      rw [hs, List.dropLast_cons₂, List.head?_cons]

/-- Witness for C2: the tick of `wgUp` turns the snake upward, pushes
the new head `(2, 0)`, and pops the tail. -/
theorem tick_moves_snake_witness :
    wgUpMoved.direction = wgUp.next_direction ∧
    wgUpMoved.snake.head? = some (step_pos ⟨2, 1⟩ wgUp.next_direction) ∧
    wgUpMoved.snake =
      (if step_pos ⟨2, 1⟩ wgUp.next_direction = wgUp.food then
        step_pos ⟨2, 1⟩ wgUp.next_direction :: wgUp.snake
      else (step_pos ⟨2, 1⟩ wgUp.next_direction :: wgUp.snake).dropLast) :=
  tick_moves_snake wgUp wgUpMoved [] ⟨2, 1⟩ [⟨1, 1⟩]
    (by decide) (by decide) (by decide) (by decide)

/-- C3: on a playing game whose food is inside the grid and off the
snake (the invariant `spawn_food` maintains), a tick whose new head is
the food grows the snake by exactly one, raises the score by exactly
one, and respawns the food (inside the grid, off the new snake, away
from the eaten cell); any other tick leaves length and score
unchanged. -/
theorem tick_growth_iff_eats (g g' : Game) (rng : List (Nat × Nat))
    (hd : Position) (tl : List Position)
    (hp : g.state = GameState.Playing) (hs : g.snake = hd :: tl)
    (hfg : in_grid g.grid_width g.grid_height g.food)
    (hfs : g.food ∉ g.snake)
    (ht : g.tick rng = some g') :
    (step_pos hd g.next_direction = g.food →
      g'.snake.length = g.snake.length + 1 ∧
      g'.score = g.score + 1 ∧
      in_grid g.grid_width g.grid_height g'.food ∧
      g'.food ∉ g'.snake ∧ g'.food ≠ g.food) ∧
    (step_pos hd g.next_direction ≠ g.food →
      g'.snake.length = g.snake.length ∧ g'.score = g.score) := by
  by_cases hf : step_pos hd g.next_direction = g.food
  · have hw : ¬ wall_collision g.grid_width g.grid_height
        (step_pos hd g.next_direction) := by
      rw [hf, not_wall_collision_iff]
      exact hfg
    have hm : step_pos hd g.next_direction ∉ g.snake := by
      rw [hf]
      exact hfs
    rw [tick_eat g rng hd tl hp hs hw hm hf] at ht
    obtain ⟨hl, h2⟩ := spawn_food_some _ g' rng ht
    have hwpos : 0 < g.grid_width := by
      have hx : (0 : Int) < g.grid_width := lt_of_le_of_lt hfg.1 hfg.2.1
      exact_mod_cast hx
    have hhpos : 0 < g.grid_height := by
      have hy : (0 : Int) < g.grid_height := lt_of_le_of_lt hfg.2.2.1 hfg.2.2.2
      exact_mod_cast hy
    have hspec := spawn_food_loop_spec _ _ _ _ _ hwpos hhpos hl
    refine ⟨fun _ => ?_, fun hne => absurd hf hne⟩
    rw [h2]
    refine ⟨rfl, rfl, hspec.1, hspec.2, fun heq => hspec.2 ?_⟩
    rw [show ({ g with
        direction := g.next_direction,
        snake := step_pos hd g.next_direction :: g.snake,
        score := g.score + 1,
        food := g'.food } : Game).food = g'.food from rfl, heq, ← hf]
    exact List.mem_cons_self _ _
  · refine ⟨fun heq => absurd heq hf, fun _ => ?_⟩
    by_cases hc : wall_collision g.grid_width g.grid_height
        (step_pos hd g.next_direction) ∨ step_pos hd g.next_direction ∈ g.snake
    · rw [tick_collision g rng hd tl hp hs hc] at ht
      obtain rfl := Option.some_injective _ ht.symm
      exact ⟨rfl, rfl⟩
    · push_neg at hc
      obtain ⟨hw, hm⟩ := hc
      rw [tick_move g rng hd tl hp hs hw hm hf] at ht
      obtain rfl := Option.some_injective _ ht.symm
      constructor
      · show ((step_pos hd g.next_direction :: g.snake).dropLast).length =
          g.snake.length
        rw [List.length_dropLast (step_pos hd g.next_direction :: g.snake)]
        rfl
      · rfl

/-- Witness for C3: the tick of `wg` with RNG draw `(0, 0)` eats the
food at `(3, 1)`. -/
theorem tick_growth_iff_eats_witness :
    (step_pos ⟨2, 1⟩ wg.next_direction = wg.food →
      wgEat.snake.length = wg.snake.length + 1 ∧
      wgEat.score = wg.score + 1 ∧
      in_grid wg.grid_width wg.grid_height wgEat.food ∧
      wgEat.food ∉ wgEat.snake ∧ wgEat.food ≠ wg.food) ∧
    (step_pos ⟨2, 1⟩ wg.next_direction ≠ wg.food →
      wgEat.snake.length = wg.snake.length ∧ wgEat.score = wg.score) :=
  tick_growth_iff_eats wg wgEat [(0, 0)] ⟨2, 1⟩ [⟨1, 1⟩]
    (by decide) (by decide) (by decide) (by decide) (by decide)

/-- C10: snake validity (non-empty, inside the grid, pairwise-distinct
segments) is preserved by every successful tick, and re-established by
every successful restart on a grid at least 4×4. -/
theorem snake_validity_preserved :
    (∀ g g' : Game, ∀ rng, valid_snake g → g.tick rng = some g' →
      valid_snake g') ∧
    (∀ g g' : Game, ∀ rng, 4 ≤ g.grid_width → 4 ≤ g.grid_height →
      g.restart rng = some g' → valid_snake g') := by
  constructor
  · intro g g' rng hv ht
    obtain ⟨hne, hin, hnd⟩ := hv
    rcases tick_cases g g' rng ht with ⟨_, rfl⟩ | ⟨_, hd, tl, hsn, hc, rfl⟩ |
      ⟨_, hd, tl, hsn, hw, hm, hf, heq⟩ | ⟨_, hd, tl, hsn, hw, hm, hf, rfl⟩
    · exact ⟨hne, hin, hnd⟩
    · exact ⟨hne, hin, hnd⟩
    · rw [heq]
      refine ⟨List.cons_ne_nil _ _, ?_, List.nodup_cons.mpr ⟨hm, hnd⟩⟩
      intro p hpmem
      rcases List.mem_cons.mp hpmem with rfl | hpmem
      · exact (not_wall_collision_iff _ _ _).mp hw
      · exact hin p hpmem
    · refine ⟨?_, ?_, hnd.cons hm |>.sublist (List.dropLast_sublist _)⟩
      · show (step_pos hd g.next_direction :: g.snake).dropLast ≠ []
        rw [hsn, List.dropLast_cons₂]
        exact List.cons_ne_nil _ _
      · intro p hpmem
        have hpmem2 := List.dropLast_subset _ hpmem
        rcases List.mem_cons.mp hpmem2 with rfl | hpmem2
        · exact (not_wall_collision_iff _ _ _).mp hw
        · exact hin p hpmem2
  · intro g g' rng hw4 hh4 h
    unfold Game.restart at h
    obtain ⟨hl, h2⟩ := spawn_food_some _ g' rng h
    rw [h2]
    have hw4' : (4 : Int) ≤ (g.grid_width : Int) := by exact_mod_cast hw4
    have hh4' : (4 : Int) ≤ (g.grid_height : Int) := by exact_mod_cast hh4
    have hexp : initial_snake g.grid_width g.grid_height =
        [⟨(g.grid_width : Int) / 2, (g.grid_height : Int) / 2⟩,
         ⟨(g.grid_width : Int) / 2 - 1, (g.grid_height : Int) / 2⟩,
         ⟨(g.grid_width : Int) / 2 - 2, (g.grid_height : Int) / 2⟩] := by
      simp [initial_snake, INITIAL_SNAKE_LENGTH, List.range_succ]
    refine ⟨?_, ?_, ?_⟩
    · show initial_snake g.grid_width g.grid_height ≠ []
      rw [hexp]
      exact List.cons_ne_nil _ _
    · intro p hpmem
      rw [show ({ g with
          snake := initial_snake g.grid_width g.grid_height,
          direction := Direction.Right,
          next_direction := Direction.Right,
          score := 0,
          state := GameState.Playing,
          food := g'.food } : Game).snake =
            initial_snake g.grid_width g.grid_height from rfl, hexp] at hpmem
      simp only [List.mem_cons, List.not_mem_nil, or_false] at hpmem
      show in_grid g.grid_width g.grid_height p
      rcases hpmem with rfl | rfl | rfl <;>
        · rw [in_grid_mk]
          omega
    · show (initial_snake g.grid_width g.grid_height).Nodup
      rw [hexp]
      refine List.nodup_cons.mpr ⟨?_, List.nodup_cons.mpr
        ⟨?_, List.nodup_cons.mpr ⟨List.not_mem_nil _, List.nodup_nil⟩⟩⟩
      · intro hmem
        simp only [List.mem_cons, List.mem_singleton, List.not_mem_nil,
          or_false, Position.mk.injEq] at hmem
        rcases hmem with ⟨hx, _⟩ | ⟨hx, _⟩ <;> omega
      · intro hmem
        simp only [List.mem_cons, List.mem_singleton, List.not_mem_nil,
          or_false, Position.mk.injEq] at hmem
        obtain ⟨hx, _⟩ := hmem
        omega

/-- Witness for C10: the eating tick of `wg` and the restart of
`wgOver` both yield valid snakes. -/
theorem snake_validity_preserved_witness :
    valid_snake wgEat ∧ valid_snake wgRestart :=
  ⟨snake_validity_preserved.1 wg wgEat [(0, 0)] (by decide) (by decide),
   snake_validity_preserved.2 wgOver wgRestart [(0, 0)]
     (by decide) (by decide) (by decide)⟩

end Snake
